import Mathlib

set_option maxHeartbeats 1000000

namespace Gut

/-- Tag marking a buildable feature branch (src/lib/utils.js, line 22:
`BUILDABLE_BRANCH_TAG = 'build#'`). -/
def BUILDABLE_BRANCH_TAG : String := "build#"

/-- The branch descriptor produced by `parseBranchName` and consumed by
`buildBranchName` (the five encoded fields; `author` and `baseBranch` are side
metadata attached by the external collaborator and never encoded).
`ticketNumber` is an `Option String` because in the source it is
`_(fragments).filter(numeric).first()`, which is `undefined` (here `none`)
when no fragment is purely numeric, and a string otherwise. -/
structure ParsedBranch where
  version : String
  feature : String
  ticketNumber : Option String
  description : String
  isBuildable : Bool
deriving DecidableEq

/-- JS `/^[0-9]+$/.test(s)`: one or more digits and nothing else. -/
def isNumericString (s : String) : Bool :=
  !s.data.isEmpty && s.data.all Char.isDigit

/-- JS `branchName.split('_')` (src/lib/utils.js, line 138): split on every
underscore, keeping empty pieces; the empty string yields one empty fragment. -/
def splitFragmentsAux : List Char → List (List Char)
  | [] => [[]]
  | c :: rest =>
    if c = '_' then [] :: splitFragmentsAux rest
    else
      match splitFragmentsAux rest with
      | [] => [[c]]
      | f :: fs => (c :: f) :: fs

def splitFragments (s : String) : List String :=
  (splitFragmentsAux s.data).map String.mk

/-- JS `s.replace(pat, '')` with a string pattern (lodash `_.replace`,
src/lib/utils.js line 144): remove the first occurrence of `pat`, anywhere in
the string, leaving the rest unchanged. -/
def removeFirstOccurrence (pat : List Char) : List Char → List Char
  | [] => []
  | c :: rest =>
    if pat.isPrefixOf (c :: rest) then (c :: rest).drop pat.length
    else c :: removeFirstOccurrence pat rest

/-- `parseBranchName` (src/lib/utils.js, lines 137-157) applied to an explicit
branch name.  The `branchName ? branchName : getCurrentBranch()` fallback of
line 138 is modelled separately by `parseBranchNameOrCurrent`.
`JS startsWith` is modelled by `List.isPrefixOf` on the character lists. -/
def parseBranchName (branchName : String) : ParsedBranch :=
  let branchFragments := splitFragments branchName
  let featureFragment :=
    if 1 < branchFragments.length && !isNumericString (branchFragments.getD 1 "") then
      branchFragments.getD 1 ""
    else ""
  let isBuildable := BUILDABLE_BRANCH_TAG.data.isPrefixOf featureFragment.data
  let feature :=
    if featureFragment = "" then ""
    else String.mk (removeFirstOccurrence BUILDABLE_BRANCH_TAG.data featureFragment.data)
  { version := branchFragments.headD ""
    feature := feature
    ticketNumber := (branchFragments.filter fun b => isNumericString b).head?
    description := if 1 < branchFragments.length then branchFragments.getLastD "" else ""
    isBuildable := isBuildable }

/-- Line 138: a falsy (absent or empty) `branchName` argument falls back to
`getCurrentBranch()`; the ambient current branch is passed explicitly. -/
def effectiveBranchName (currentBranch : String) : Option String → String
  | some n => if n = "" then currentBranch else n
  | none => currentBranch

def parseBranchNameOrCurrent (currentBranch : String) (branchName : Option String) :
    ParsedBranch :=
  parseBranchName (effectiveBranchName currentBranch branchName)

/-- JS `'' + (parsedBranch.ticketNumber || '')` (line 162): `undefined` and the
empty string both become the empty string; any other string is kept. -/
def ticketNumberToString : Option String → String
  | none => ""
  | some t => t

/-- lodash `_.join('_')` of the fragment list (line 167). -/
def joinUnderscore : List String → String
  | [] => ""
  | [f] => f
  | f :: g :: rest => f ++ "_" ++ joinUnderscore (g :: rest)

/-- `buildBranchName` (src/lib/utils.js, lines 159-168): format the four
fragments, reject the empty ones, join with underscore. -/
def buildBranchName (parsedBranch : ParsedBranch) : String :=
  let versionFragment := parsedBranch.version
  let featureFragment :=
    (if parsedBranch.isBuildable then BUILDABLE_BRANCH_TAG else "") ++ parsedBranch.feature
  let ticketNumberFragment := ticketNumberToString parsedBranch.ticketNumber
  let descriptionFragment := parsedBranch.description
  joinUnderscore
    (([versionFragment, featureFragment, ticketNumberFragment, descriptionFragment]).filter
      fun fragment => fragment != "")

/-- JS truthiness of a string: true iff non-empty. -/
def stringTruthy (s : String) : Bool := !(s == "")

/-- JS truthiness of a string-or-undefined value. -/
def optionTruthy : Option String → Bool
  | none => false
  | some s => !(s == "")

/-- `isMasterBranch` (src/lib/utils.js, lines 170-175). -/
def isMasterBranch (parsedBranch : ParsedBranch) : Bool :=
  parsedBranch.version == "master"
    && !stringTruthy parsedBranch.feature
    && !optionTruthy parsedBranch.ticketNumber
    && !stringTruthy parsedBranch.description

/-- `isVersionBranch` (src/lib/utils.js, lines 177-182); the version field is
only tested for truthiness (the source comment reads `TODO: semver-check dat`). -/
def isVersionBranch (parsedBranch : ParsedBranch) : Bool :=
  stringTruthy parsedBranch.version
    && !stringTruthy parsedBranch.feature
    && !optionTruthy parsedBranch.ticketNumber
    && !stringTruthy parsedBranch.description

/-- `isFeatureBranch` (src/lib/utils.js, lines 184-189). -/
def isFeatureBranch (parsedBranch : ParsedBranch) : Bool :=
  stringTruthy parsedBranch.version
    && stringTruthy parsedBranch.feature
    && !optionTruthy parsedBranch.ticketNumber
    && !stringTruthy parsedBranch.description

/-- `isDevBranch` (src/lib/utils.js, lines 191-194). -/
def isDevBranch (parsedBranch : ParsedBranch) : Bool :=
  stringTruthy parsedBranch.version && stringTruthy parsedBranch.description

/-- `createVersionBranch` (src/unnamed/part_000, lines 48-58): guard, then
clone the current descriptor and overwrite `version`.  The final
`createBranch` call (git checkout and metadata write) is the external
collaborator; the model returns the descriptor handed to it, or the thrown
error message. -/
def createVersionBranch (parsedBranch : ParsedBranch) (newVersion : String) :
    Except String ParsedBranch :=
  if !isMasterBranch parsedBranch then
    Except.error "It is only allowed to create version branches from master!"
  else
    Except.ok { parsedBranch with version := newVersion }

/-- `createFeatureBranch` (src/unnamed/part_000, lines 60-72): guard, then
clone and overwrite `feature` and `isBuildable` (an absent `--buildable` flag
is falsy, modelled as `false`). -/
def createFeatureBranch (parsedBranch : ParsedBranch) (newFeature : String)
    (newIsBuildable : Bool) : Except String ParsedBranch :=
  if !isMasterBranch parsedBranch && !isVersionBranch parsedBranch then
    Except.error "It is only allowed to create feature branches from version branches or master!"
  else
    Except.ok { parsedBranch with feature := newFeature, isBuildable := newIsBuildable }

/-- `createDevBranch` (src/unnamed/part_000, lines 74-86): guard, then clone
and overwrite `ticketNumber` (the flag value, or the empty string when absent,
per `arguments[..] || ''`) and `description`. -/
def createDevBranch (parsedBranch : ParsedBranch) (newDescription : String)
    (newTicketNumber : String) : Except String ParsedBranch :=
  if !isVersionBranch parsedBranch && !isFeatureBranch parsedBranch then
    Except.error "It is only allowed to create dev branches from version or feature branches!"
  else
    Except.ok { parsedBranch with ticketNumber := some newTicketNumber,
                                  description := newDescription }

/-- The character class `[0.9]` of the regex on src/unnamed/part_000 line 122:
it matches exactly the characters `0`, `.` and `9` (not the digit range). -/
def versionCharSet (c : Char) : Bool := c == '0' || c == '.' || c == '9'

/-- All remainders after consuming one or more `[0.9]` characters, i.e. every
way `[0.9]+` can match at the front of the input. -/
def plusRemainders : List Char → List (List Char)
  | [] => []
  | c :: rest =>
    if versionCharSet c then rest :: plusRemainders rest else []

/-- A match of `[0.9]+\.[0.9]+\.[0.9]+(\.[0.9]+)?` starting at the head of the
input.  The optional trailing group may match the empty string and the match
need not reach the end of the input, so neither affects existence; the third
`[0.9]+` succeeds iff at least one class character follows the second dot. -/
def versionPatternAt (l : List Char) : Bool :=
  (plusRemainders l).any fun r1 =>
    match r1 with
    | '.' :: r2 =>
      (plusRemainders r2).any fun r3 =>
        match r3 with
        | '.' :: r4 => !(plusRemainders r4).isEmpty
        | _ => false
    | _ => false

/-- JS `RegExp.test`: the pattern is unanchored, so search from every position. -/
def versionRegexSearch : List Char → Bool
  | [] => versionPatternAt []
  | c :: rest => versionPatternAt (c :: rest) || versionRegexSearch rest

def versionRegexTest (s : String) : Bool := versionRegexSearch s.data

/-- The `version` coercion of the `burgeon` command (src/unnamed/part_000,
lines 121-126): throw unless the regex finds a match in the argument. -/
def coerceVersionArgument (argument : String) : Except String String :=
  if !versionRegexTest argument then
    Except.error "Argument version must follow semver!"
  else
    Except.ok argument

/-- True iff the character list contains two adjacent underscores. -/
def hasAdjacentUnderscores : List Char → Bool
  | [] => false
  | [_] => false
  | c :: c' :: rest => (c == '_' && c' == '_') || hasAdjacentUnderscores (c' :: rest)

/-- Sanity example: decoding a full four-fragment name. -/
example :
    parseBranchName "1.2.3_build#login_42_fix-bug"
      = { version := "1.2.3", feature := "login", ticketNumber := some "42",
          description := "fix-bug", isBuildable := true } := by decide

/-- C1: the round-trip claim fails on the code.  The feature descriptor
(version "1.2.3", feature "login", no ticket, no description) satisfies every
invariant of the claim, encodes to "1.2.3_login", yet decoding that name sets
`description` to the last fragment "login" instead of the empty string, so
`decode (encode d)` does not reproduce the five fields; the decoded descriptor
is moreover classified as Dev, not Feature, making the tool's own
feature-to-dev transition impossible. -/
theorem roundtrip_breaks_on_feature_descriptor :
    buildBranchName
        { version := "1.2.3", feature := "login", ticketNumber := some "",
          description := "", isBuildable := false } = "1.2.3_login"
    ∧ (parseBranchName "1.2.3_login").description = "login"
    ∧ (parseBranchName "1.2.3_login").feature = "login"
    ∧ parseBranchName "1.2.3_login"
        ≠ { version := "1.2.3", feature := "login", ticketNumber := some "",
            description := "", isBuildable := false }
    ∧ isFeatureBranch (parseBranchName "1.2.3_login") = false
    ∧ isDevBranch (parseBranchName "1.2.3_login") = true := by decide

/-- C2 counterexample: the four predicates are not mutually exclusive as
claimed — the descriptor decoded from "master" satisfies both
`isMasterBranch` and `isVersionBranch`. -/
theorem master_satisfies_two_predicates :
    isMasterBranch (parseBranchName "master") = true
    ∧ isVersionBranch (parseBranchName "master") = true := by decide

/-- C3: the transition table is violated by the code.  The current descriptor
decoded from "master" classifies as Master, yet `createDevBranch` succeeds on
it (because `isVersionBranch` is also true of the master descriptor), handing
the encoded name "master_fix-bug" to the external creator instead of failing;
the guards for version and feature creation do fail where the table says so. -/
theorem createDevBranch_allowed_from_master :
    isMasterBranch (parseBranchName "master") = true
    ∧ (createDevBranch (parseBranchName "master") "fix-bug" "").toOption
        = some { version := "master", feature := "", ticketNumber := some "",
                 description := "fix-bug", isBuildable := false }
    ∧ buildBranchName
        { version := "master", feature := "", ticketNumber := some "",
          description := "fix-bug", isBuildable := false } = "master_fix-bug"
    ∧ (createVersionBranch (parseBranchName "1.2.3_login_42_fix") "2.0.0").toOption = none
    ∧ (createFeatureBranch (parseBranchName "1.2.3_login_42_fix") "other" false).toOption
        = none := by decide

/-- C4: the version validator contradicts the claim.  The regex on
src/unnamed/part_000 line 122 uses the character class `[0.9]` (the characters
`0`, `.` and `9`), not the digit range, and is unanchored; consequently it
rejects the semver strings "2.10.0" and "2.10.0.1" (they contain the digits 1
and 2), while accepting strings such as "0.9.0" and even the prefixed
"v0.0.0". -/
theorem version_validator_rejects_semver :
    (coerceVersionArgument "2.10.0").toOption = none
    ∧ (coerceVersionArgument "2.10.0.1").toOption = none
    ∧ (coerceVersionArgument "2.10").toOption = none
    ∧ (coerceVersionArgument "v2.10.0").toOption = none
    ∧ (coerceVersionArgument "0.9.0").toOption = some "0.9.0"
    ∧ (coerceVersionArgument "v0.0.0").toOption = some "v0.0.0"
    ∧ versionRegexTest "....." = true := by decide

/-- C6 counterexample: the claim says a leading `build#` tag is stripped from
fragment 1, but the code removes the first occurrence of the tag anywhere in
the fragment: decoding "1.2.3_xbuild#y" yields feature "xy" (tag removed from
the middle) with `isBuildable` false, whereas stripping only a leading tag
would leave "xbuild#y" intact. -/
theorem feature_tag_removed_nonleading :
    (parseBranchName "1.2.3_xbuild#y").feature = "xy"
    ∧ (parseBranchName "1.2.3_xbuild#y").isBuildable = false
    ∧ ("xy" : String) ≠ "xbuild#y" := by decide

/-- C7 counterexample: the separator properties claimed for every descriptor
with non-empty version fail when a field itself contains an underscore: the
descriptor with version "1.2.3" and feature "_" encodes to "1.2.3__", which
has two adjacent underscores and ends with an underscore. -/
theorem underscore_field_breaks_separator_property :
    ("1.2.3" : String) ≠ ""
    ∧ buildBranchName
        { version := "1.2.3", feature := "_", ticketNumber := none,
          description := "", isBuildable := false } = "1.2.3__"
    ∧ hasAdjacentUnderscores ("1.2.3__" : String).data = true
    ∧ ("1.2.3__" : String).data.getLast? = some '_' := by decide

/-- C8 counterexample: a missing ticket number does not default to the empty
string.  `decode("master")` yields `ticketNumber = none` (JS `undefined`, the
value lodash `first()` returns on an empty collection), which is a different
value from the empty string (e.g. `JSON.stringify` omits it), refuting the
claimed default. -/
theorem ticketNumber_defaults_to_undefined :
    (parseBranchName "master").ticketNumber = none
    ∧ (none : Option String) ≠ some "" := by decide

/-! Helper lemmas about strings, splitting and joining. -/

theorem string_data_append (a b : String) : (a ++ b).data = a.data ++ b.data := rfl

theorem string_mk_data (s : String) : String.mk s.data = s := rfl

theorem string_eq_empty_iff (s : String) : s = "" ↔ s.data = [] :=
  ⟨fun h => by rw [h], fun h => by rw [← string_mk_data s, h]⟩

theorem splitFragmentsAux_ne_nil : ∀ (l : List Char), splitFragmentsAux l ≠ []
  | [] => by simp [splitFragmentsAux]
  | c :: rest => by
      simp only [splitFragmentsAux]
      split
      · simp
      · split <;> simp

theorem splitFragmentsAux_no_sep : ∀ (l : List Char), '_' ∉ l → splitFragmentsAux l = [l]
  | [], _ => rfl
  | c :: rest, h => by
      have hc : ¬(c = '_') := fun hh => h (hh ▸ List.mem_cons_self c rest)
      have ih := splitFragmentsAux_no_sep rest (fun hm => h (List.mem_cons_of_mem c hm))
      simp only [splitFragmentsAux, if_neg hc, ih]

theorem splitFragmentsAux_append : ∀ (a b : List Char), '_' ∉ a →
    splitFragmentsAux (a ++ '_' :: b) = a :: splitFragmentsAux b
  | [], b, _ => by simp [splitFragmentsAux]
  | c :: a', b, h => by
      have hc : ¬(c = '_') := fun hh => h (hh ▸ List.mem_cons_self c a')
      have ih := splitFragmentsAux_append a' b (fun hm => h (List.mem_cons_of_mem c hm))
      show splitFragmentsAux (c :: (a' ++ '_' :: b)) = (c :: a') :: splitFragmentsAux b
      rw [show splitFragmentsAux (c :: (a' ++ '_' :: b))
          = (if c = '_' then [] :: splitFragmentsAux (a' ++ '_' :: b)
             else match splitFragmentsAux (a' ++ '_' :: b) with
               | [] => [[c]]
               | f :: fs => (c :: f) :: fs) from rfl]
      rw [if_neg hc, ih]

theorem splitFragments_join : ∀ (fs : List String), fs ≠ [] →
    (∀ f ∈ fs, '_' ∉ f.data) → splitFragments (joinUnderscore fs) = fs
  | [], h, _ => absurd rfl h
  | [f], _, hu => by
      have hno := splitFragmentsAux_no_sep f.data (hu f (List.mem_cons_self f []))
      simp [joinUnderscore, splitFragments, hno, string_mk_data]
  | f :: g :: rest, _, hu => by
      have hjoin : (joinUnderscore (f :: g :: rest)).data
          = f.data ++ '_' :: (joinUnderscore (g :: rest)).data := by
        show (f ++ "_" ++ joinUnderscore (g :: rest)).data = _
        rw [string_data_append, string_data_append, List.append_assoc]
        rfl
      have ih := splitFragments_join (g :: rest) (by simp)
        (fun x hx => hu x (List.mem_cons_of_mem f hx))
      unfold splitFragments
      rw [hjoin, splitFragmentsAux_append _ _ (hu f (List.mem_cons_self f _))]
      rw [List.map_cons, string_mk_data]
      rw [show List.map String.mk (splitFragmentsAux (joinUnderscore (g :: rest)).data)
          = splitFragments (joinUnderscore (g :: rest)) from rfl, ih]

theorem getLastD_mem {α : Type} : ∀ (l : List α) (dflt : α), l ≠ [] → l.getLastD dflt ∈ l
  | [], _, h => absurd rfl h
  | [a], dflt, _ => by
      rw [List.getLastD_cons, List.getLastD_nil]
      exact List.mem_cons_self a []
  | a :: b :: t, dflt, _ => by
      rw [List.getLastD_cons]
      exact List.mem_cons_of_mem a (getLastD_mem (b :: t) a (by simp))

theorem getLastQ_append : ∀ (a : List Char) (c : Char) (b : List Char),
    (a ++ c :: b).getLast? = (c :: b).getLast?
  | [], _, _ => rfl
  | [x], c, b => by
      show (x :: c :: b).getLast? = (c :: b).getLast?
      exact List.getLast?_cons_cons
  | x :: y :: a', c, b => by
      have ih := getLastQ_append (y :: a') c b
      show (x :: y :: (a' ++ c :: b)).getLast? = (c :: b).getLast?
      rw [List.getLast?_cons_cons]
      exact ih

theorem getLastQ_mem {α : Type} : ∀ (l : List α) (a : α), l.getLast? = some a → a ∈ l
  | [], a, h => by simp at h
  | [b], a, h => by
      have hba : b = a := by simpa using h
      rw [← hba]
      exact List.mem_cons_self b []
  | b :: c :: t, a, h => by
      rw [List.getLast?_cons_cons] at h
      exact List.mem_cons_of_mem b (getLastQ_mem (c :: t) a h)

theorem headQ_ne_underscore (l : List Char) (h : '_' ∉ l) : l.head? ≠ some '_' := by
  cases l with
  | nil => simp
  | cons c t =>
    rw [List.head?_cons]
    intro hh
    injection hh with hh
    exact h (by rw [← hh]; exact List.mem_cons_self c t)

theorem lastQ_ne_underscore (l : List Char) (h : '_' ∉ l) : l.getLast? ≠ some '_' :=
  fun hh => h (getLastQ_mem l '_' hh)

theorem hasAdj_of_no_underscore : ∀ (l : List Char), '_' ∉ l →
    hasAdjacentUnderscores l = false
  | [], _ => rfl
  | [_], _ => rfl
  | c :: c' :: t, h => by
      have hc : (c == '_') = false :=
        beq_eq_false_iff_ne.mpr (fun hh => h (hh ▸ List.mem_cons_self c (c' :: t)))
      have ih := hasAdj_of_no_underscore (c' :: t) (fun hm => h (List.mem_cons_of_mem c hm))
      show ((c == '_' && c' == '_') || hasAdjacentUnderscores (c' :: t)) = false
      simp [hc, ih]

theorem hasAdj_sep (J : List Char) (hJ : hasAdjacentUnderscores J = false)
    (hJne : J ≠ []) (hJh : J.head? ≠ some '_') :
    ∀ (a : List Char), '_' ∉ a → a ≠ [] →
      hasAdjacentUnderscores (a ++ '_' :: J) = false := by
  intro a
  induction a with
  | nil => intro _ hne; exact absurd rfl hne
  | cons c a' ih =>
    intro h _
    have hc : (c == '_') = false :=
      beq_eq_false_iff_ne.mpr (fun hh => h (hh ▸ List.mem_cons_self c a'))
    cases a' with
    | nil =>
      cases J with
      | nil => exact absurd rfl hJne
      | cons j r =>
        have hj : (j == '_') = false := beq_eq_false_iff_ne.mpr (by
          intro hh
          exact hJh (by rw [List.head?_cons, hh]))
        show hasAdjacentUnderscores (c :: '_' :: j :: r) = false
        rw [show hasAdjacentUnderscores (c :: '_' :: j :: r)
            = ((c == '_' && '_' == '_') || hasAdjacentUnderscores ('_' :: j :: r)) from rfl]
        rw [show hasAdjacentUnderscores ('_' :: j :: r)
            = (('_' == '_' && j == '_') || hasAdjacentUnderscores (j :: r)) from rfl]
        rw [hJ]
        simp [hc, hj]
    | cons c'' a'' =>
      have ih' := ih (fun hm => h (List.mem_cons_of_mem c hm)) (by simp)
      show hasAdjacentUnderscores (c :: c'' :: (a'' ++ '_' :: J)) = false
      rw [show hasAdjacentUnderscores (c :: c'' :: (a'' ++ '_' :: J))
          = ((c == '_' && c'' == '_') || hasAdjacentUnderscores (c'' :: (a'' ++ '_' :: J)))
          from rfl]
      have hrest : hasAdjacentUnderscores (c'' :: (a'' ++ '_' :: J)) = false := ih'
      simp [hc, hrest]

theorem joinUnderscore_clean : ∀ (fs : List String), fs ≠ [] →
    (∀ f ∈ fs, f ≠ "" ∧ '_' ∉ f.data) →
    hasAdjacentUnderscores (joinUnderscore fs).data = false
    ∧ (joinUnderscore fs).data ≠ []
    ∧ (joinUnderscore fs).data.head? ≠ some '_'
    ∧ (joinUnderscore fs).data.getLast? ≠ some '_'
  | [], h, _ => absurd rfl h
  | [f], _, hu => by
      obtain ⟨hne, hnu⟩ := hu f (List.mem_cons_self f [])
      have hdata : f.data ≠ [] := fun hh => hne ((string_eq_empty_iff f).mpr hh)
      exact ⟨hasAdj_of_no_underscore f.data hnu, hdata,
        headQ_ne_underscore f.data hnu, lastQ_ne_underscore f.data hnu⟩
  | f :: g :: rest, _, hu => by
      obtain ⟨hfne, hfu⟩ := hu f (List.mem_cons_self f (g :: rest))
      obtain ⟨ih1, ih2, ih3, ih4⟩ := joinUnderscore_clean (g :: rest) (by simp)
        (fun x hx => hu x (List.mem_cons_of_mem f hx))
      have hfdata : f.data ≠ [] := fun hh => hfne ((string_eq_empty_iff f).mpr hh)
      have hjoin : (joinUnderscore (f :: g :: rest)).data
          = f.data ++ '_' :: (joinUnderscore (g :: rest)).data := by
        show (f ++ "_" ++ joinUnderscore (g :: rest)).data = _
        rw [string_data_append, string_data_append, List.append_assoc]
        rfl
      rw [hjoin]
      refine ⟨hasAdj_sep _ ih1 ih2 ih3 f.data hfu hfdata, by simp, ?_, ?_⟩
      · cases hf : f.data with
        | nil => exact absurd hf hfdata
        | cons c t =>
          have hcu : c ≠ '_' := fun hh => hfu (by rw [hf, hh]; exact List.mem_cons_self '_' t)
          rw [List.cons_append, List.head?_cons]
          intro hh
          injection hh with hh
          exact hcu hh
      · rw [getLastQ_append]
        cases hJ : (joinUnderscore (g :: rest)).data with
        | nil => exact absurd hJ ih2
        | cons j r =>
          rw [List.getLast?_cons_cons]
          rw [hJ] at ih4
          exact ih4

theorem featureFragment_no_underscore (d : ParsedBranch) (hfu : '_' ∉ d.feature.data) :
    '_' ∉ ((if d.isBuildable then BUILDABLE_BRANCH_TAG else "") ++ d.feature).data := by
  rw [string_data_append]
  intro hmem
  rcases List.mem_append.mp hmem with h1 | h1
  · cases hb : d.isBuildable
    · rw [hb] at h1
      simp at h1
    · rw [hb] at h1
      exact absurd h1 (by decide)
  · exact hfu h1

theorem featureFragment_ne_empty (d : ParsedBranch) (hf : d.feature ≠ "") :
    (if d.isBuildable then BUILDABLE_BRANCH_TAG else "") ++ d.feature ≠ "" := by
  intro hh
  have hdata := (string_eq_empty_iff _).mp hh
  rw [string_data_append] at hdata
  exact hf ((string_eq_empty_iff _).mpr (List.append_eq_nil.mp hdata).2)

/-- The fragments of an encoded name: the version fragment, then whichever of
the feature, ticket and description fragments are non-empty, provided no field
contains the separator. -/
theorem splitFragments_buildBranchName (d : ParsedBranch)
    (hv : d.version ≠ "")
    (hvu : '_' ∉ d.version.data)
    (hfu : '_' ∉ d.feature.data)
    (htu : '_' ∉ (ticketNumberToString d.ticketNumber).data)
    (hsu : '_' ∉ d.description.data) :
    splitFragments (buildBranchName d)
      = d.version ::
        (([(if d.isBuildable then BUILDABLE_BRANCH_TAG else "") ++ d.feature,
           ticketNumberToString d.ticketNumber,
           d.description]).filter fun fragment => fragment != "") := by
  have hvb : (d.version != "") = true := bne_iff_ne.mpr hv
  have hfilter : ([d.version,
        (if d.isBuildable then BUILDABLE_BRANCH_TAG else "") ++ d.feature,
        ticketNumberToString d.ticketNumber,
        d.description]).filter (fun fragment => fragment != "")
      = d.version ::
        (([(if d.isBuildable then BUILDABLE_BRANCH_TAG else "") ++ d.feature,
           ticketNumberToString d.ticketNumber,
           d.description]).filter fun fragment => fragment != "") := by
    rw [List.filter_cons]
    simp [hvb]
  rw [show buildBranchName d
      = joinUnderscore (([d.version,
          (if d.isBuildable then BUILDABLE_BRANCH_TAG else "") ++ d.feature,
          ticketNumberToString d.ticketNumber,
          d.description]).filter fun fragment => fragment != "") from rfl, hfilter]
  apply splitFragments_join
  · simp
  · intro f hf
    rcases List.mem_cons.mp hf with rfl | hf'
    · exact hvu
    · have h1 := List.mem_of_mem_filter hf'
      simp only [List.mem_cons, List.not_mem_nil, or_false] at h1
      rcases h1 with rfl | rfl | rfl
      · exact featureFragment_no_underscore d hfu
      · exact htu
      · exact hsu

/-- Field-by-field characterization of `parseBranchName` in terms of the
fragment list. -/
theorem parseBranchName_fields (n : String) :
    (parseBranchName n).version = (splitFragments n).headD ""
    ∧ (parseBranchName n).ticketNumber
        = ((splitFragments n).filter fun b => isNumericString b).head?
    ∧ (parseBranchName n).description
        = (if 1 < (splitFragments n).length then (splitFragments n).getLastD "" else "")
    ∧ (parseBranchName n).feature
        = (if (1 < (splitFragments n).length
              && !isNumericString ((splitFragments n).getD 1 "")) = true then
            (if (splitFragments n).getD 1 "" = "" then ""
             else String.mk (removeFirstOccurrence BUILDABLE_BRANCH_TAG.data
                 ((splitFragments n).getD 1 "").data))
          else "")
    ∧ (parseBranchName n).isBuildable
        = (if (1 < (splitFragments n).length
              && !isNumericString ((splitFragments n).getD 1 "")) = true then
            BUILDABLE_BRANCH_TAG.data.isPrefixOf ((splitFragments n).getD 1 "").data
          else false) := by
  refine ⟨rfl, rfl, rfl, ?_, ?_⟩
  · show (if (if (1 < (splitFragments n).length
          && !isNumericString ((splitFragments n).getD 1 "")) = true then
            (splitFragments n).getD 1 "" else "") = "" then ""
        else String.mk (removeFirstOccurrence BUILDABLE_BRANCH_TAG.data
          (if (1 < (splitFragments n).length
              && !isNumericString ((splitFragments n).getD 1 "")) = true then
            (splitFragments n).getD 1 "" else "").data)) = _
    cases hg : (1 < (splitFragments n).length
        && !isNumericString ((splitFragments n).getD 1 "")) with
    | false => simp [hg]
    | true => simp [hg]
  · show BUILDABLE_BRANCH_TAG.data.isPrefixOf
        (if (1 < (splitFragments n).length
            && !isNumericString ((splitFragments n).getD 1 "")) = true then
          (splitFragments n).getD 1 "" else "").data = _
    cases hg : (1 < (splitFragments n).length
        && !isNumericString ((splitFragments n).getD 1 "")) with
    | false =>
      simp [hg]
      decide
    | true => simp [hg]

/-- C2 (amended): for every branch name encoded from a descriptor whose fields
are underscore-free, whose version is non-empty and not purely numeric, the
decoded descriptor satisfies at least one of the four predicates, and exactly
one of isMasterBranch, isVersionBranch-and-not-Master, isFeatureBranch,
isDevBranch; the predicates as literally stated are not mutually exclusive
because isMasterBranch implies isVersionBranch. -/
theorem classification_exhaustive_and_quasi_exclusive (d : ParsedBranch)
    (hv : d.version ≠ "")
    (hvn : isNumericString d.version = false)
    (hvu : '_' ∉ d.version.data)
    (hfu : '_' ∉ d.feature.data)
    (htu : '_' ∉ (ticketNumberToString d.ticketNumber).data)
    (hsu : '_' ∉ d.description.data) :
    ((isMasterBranch (parseBranchName (buildBranchName d))
        || isVersionBranch (parseBranchName (buildBranchName d))
        || isFeatureBranch (parseBranchName (buildBranchName d))
        || isDevBranch (parseBranchName (buildBranchName d))) = true)
    ∧ ((isMasterBranch (parseBranchName (buildBranchName d))).toNat
        + (isVersionBranch (parseBranchName (buildBranchName d))
            && !isMasterBranch (parseBranchName (buildBranchName d))).toNat
        + (isFeatureBranch (parseBranchName (buildBranchName d))).toNat
        + (isDevBranch (parseBranchName (buildBranchName d))).toNat = 1) := by
  have hsplit := splitFragments_buildBranchName d hv hvu hfu htu hsu
  cases hrest : ([(if d.isBuildable then BUILDABLE_BRANCH_TAG else "") ++ d.feature,
      ticketNumberToString d.ticketNumber,
      d.description]).filter (fun fragment => fragment != "") with
  | nil =>
    rw [hrest] at hsplit
    have hnum : ([d.version].filter fun b => isNumericString b) = [] := by
      rw [List.filter_cons]
      simp [hvn]
    have hp : parseBranchName (buildBranchName d)
        = { version := d.version, feature := "", ticketNumber := none,
            description := "", isBuildable := false } := by
      simp only [parseBranchName, hsplit]
      simp [hnum]
      decide
    rw [hp]
    have hvb : (d.version == "") = false := beq_eq_false_iff_ne.mpr hv
    cases hm : (d.version == "master") with
    | false =>
      constructor <;>
        simp [isMasterBranch, isVersionBranch, isFeatureBranch, isDevBranch,
          stringTruthy, optionTruthy, hm, hvb]
    | true =>
      constructor <;>
        simp [isMasterBranch, isVersionBranch, isFeatureBranch, isDevBranch,
          stringTruthy, optionTruthy, hm, hvb]
  | cons r rs =>
    rw [hrest] at hsplit
    have hlen : 1 < (d.version :: r :: rs).length := by simp
    have hver : (parseBranchName (buildBranchName d)).version = d.version := by
      rw [(parseBranchName_fields (buildBranchName d)).1, hsplit]
      rfl
    have hdesc : (parseBranchName (buildBranchName d)).description
        = (d.version :: r :: rs).getLastD "" := by
      rw [(parseBranchName_fields (buildBranchName d)).2.2.1, hsplit, if_pos hlen]
    have hdne : (parseBranchName (buildBranchName d)).description ≠ "" := by
      rw [hdesc]
      have hmem := getLastD_mem (d.version :: r :: rs) "" (by simp)
      rcases List.mem_cons.mp hmem with h1 | h1
      · rw [h1]; exact hv
      · have h1' : (d.version :: r :: rs).getLastD "" ∈
            ([(if d.isBuildable then BUILDABLE_BRANCH_TAG else "") ++ d.feature,
              ticketNumberToString d.ticketNumber,
              d.description]).filter (fun fragment => fragment != "") := by
          rw [hrest]
          exact h1
        exact bne_iff_ne.mp (List.mem_filter.mp h1').2
    have h1 : stringTruthy (parseBranchName (buildBranchName d)).description = true := by
      simp [stringTruthy, hdne]
    have h2 : stringTruthy (parseBranchName (buildBranchName d)).version = true := by
      rw [hver]
      simp [stringTruthy, hv]
    constructor
    · simp [isMasterBranch, isVersionBranch, isFeatureBranch, isDevBranch, h1, h2]
    · simp [isMasterBranch, isVersionBranch, isFeatureBranch, isDevBranch, h1, h2]

/-- Witness for C2: the theorem applied to a concrete feature descriptor. -/
theorem classification_exhaustive_and_quasi_exclusive_witness :
    ((isMasterBranch (parseBranchName (buildBranchName
        { version := "1.2.3", feature := "login", ticketNumber := some "42",
          description := "fix", isBuildable := false }))
      || isVersionBranch (parseBranchName (buildBranchName
        { version := "1.2.3", feature := "login", ticketNumber := some "42",
          description := "fix", isBuildable := false }))
      || isFeatureBranch (parseBranchName (buildBranchName
        { version := "1.2.3", feature := "login", ticketNumber := some "42",
          description := "fix", isBuildable := false }))
      || isDevBranch (parseBranchName (buildBranchName
        { version := "1.2.3", feature := "login", ticketNumber := some "42",
          description := "fix", isBuildable := false }))) = true)
    ∧ ((isMasterBranch (parseBranchName (buildBranchName
        { version := "1.2.3", feature := "login", ticketNumber := some "42",
          description := "fix", isBuildable := false }))).toNat
      + (isVersionBranch (parseBranchName (buildBranchName
          { version := "1.2.3", feature := "login", ticketNumber := some "42",
            description := "fix", isBuildable := false }))
          && !isMasterBranch (parseBranchName (buildBranchName
          { version := "1.2.3", feature := "login", ticketNumber := some "42",
            description := "fix", isBuildable := false }))).toNat
      + (isFeatureBranch (parseBranchName (buildBranchName
          { version := "1.2.3", feature := "login", ticketNumber := some "42",
            description := "fix", isBuildable := false }))).toNat
      + (isDevBranch (parseBranchName (buildBranchName
          { version := "1.2.3", feature := "login", ticketNumber := some "42",
            description := "fix", isBuildable := false }))).toNat = 1) :=
  classification_exhaustive_and_quasi_exclusive
    { version := "1.2.3", feature := "login", ticketNumber := some "42",
      description := "fix", isBuildable := false }
    (by decide) (by decide) (by decide) (by decide) (by decide) (by decide)

/-- C5: the description slot is the last fragment unconditionally whenever the
name has more than one fragment; consequently every Feature-state descriptor
(version set, feature non-empty, ticket and description empty) decodes after
encoding to a descriptor whose description equals its feature fragment, which
isDevBranch classifies as Dev and isFeatureBranch does not classify as
Feature. -/
theorem description_steals_feature_fragment :
    (∀ n : String, 1 < (splitFragments n).length →
        (parseBranchName n).description = (splitFragments n).getLastD "")
    ∧ (∀ d : ParsedBranch, d.version ≠ "" → '_' ∉ d.version.data →
        d.feature ≠ "" → '_' ∉ d.feature.data →
        ticketNumberToString d.ticketNumber = "" → d.description = "" →
        ((parseBranchName (buildBranchName d)).description
            = (if d.isBuildable then BUILDABLE_BRANCH_TAG else "") ++ d.feature
          ∧ isDevBranch (parseBranchName (buildBranchName d)) = true
          ∧ isFeatureBranch (parseBranchName (buildBranchName d)) = false)) := by
  constructor
  · intro n hn
    rw [(parseBranchName_fields n).2.2.1, if_pos hn]
  · intro d hv hvu hf hfu ht hs
    have htu : '_' ∉ (ticketNumberToString d.ticketNumber).data := by
      rw [ht]
      simp
    have hsu : '_' ∉ d.description.data := by
      rw [hs]
      simp
    have hsplit := splitFragments_buildBranchName d hv hvu hfu htu hsu
    have hffne := featureFragment_ne_empty d hf
    have hrest : ([(if d.isBuildable then BUILDABLE_BRANCH_TAG else "") ++ d.feature,
        ticketNumberToString d.ticketNumber,
        d.description]).filter (fun fragment => fragment != "")
        = [(if d.isBuildable then BUILDABLE_BRANCH_TAG else "") ++ d.feature] := by
      rw [ht, hs]
      simp [List.filter_cons, hffne]
    rw [hrest] at hsplit
    have hl2 : 1 < ([d.version,
        (if d.isBuildable then BUILDABLE_BRANCH_TAG else "") ++ d.feature] : List String).length := by
      simp
    have hdesc : (parseBranchName (buildBranchName d)).description
        = (if d.isBuildable then BUILDABLE_BRANCH_TAG else "") ++ d.feature := by
      rw [(parseBranchName_fields (buildBranchName d)).2.2.1, hsplit, if_pos hl2]
      rw [List.getLastD_cons, List.getLastD_cons, List.getLastD_nil]
    have hver : (parseBranchName (buildBranchName d)).version = d.version := by
      rw [(parseBranchName_fields (buildBranchName d)).1, hsplit]
      rfl
    refine ⟨hdesc, ?_, ?_⟩
    · simp [isDevBranch, stringTruthy, hver, hdesc, hv, hffne]
    · simp [isFeatureBranch, stringTruthy, hdesc, hffne]

/-- Witness for C5: the theorem applied to the concrete feature descriptor
(version "1.2.3", feature "login") and to the concrete name "a_b". -/
theorem description_steals_feature_fragment_witness :
    ((parseBranchName (buildBranchName
        { version := "1.2.3", feature := "login", ticketNumber := none,
          description := "", isBuildable := false })).description = "login"
      ∧ isDevBranch (parseBranchName (buildBranchName
          { version := "1.2.3", feature := "login", ticketNumber := none,
            description := "", isBuildable := false })) = true
      ∧ isFeatureBranch (parseBranchName (buildBranchName
          { version := "1.2.3", feature := "login", ticketNumber := none,
            description := "", isBuildable := false })) = false)
    ∧ (parseBranchName "a_b").description = (splitFragments "a_b").getLastD "" :=
  ⟨description_steals_feature_fragment.2
      { version := "1.2.3", feature := "login", ticketNumber := none,
        description := "", isBuildable := false }
      (by decide) (by decide) (by decide) (by decide) (by decide) (by decide),
   description_steals_feature_fragment.1 "a_b" (by decide)⟩

/-- C6 (amended): when the name has more than one fragment and fragment 1 is
not purely numeric, fragment 1 is the feature fragment with the first
occurrence of the build tag (anywhere, not only leading) removed, and
isBuildable is set iff the fragment starts with the tag; when fragment 1 is
purely numeric, feature is empty, isBuildable false, and ticketNumber is the
first purely numeric fragment anywhere; the concrete example
"1.2.3_build#login_42_fix-bug" decodes as the claim states. -/
theorem parse_positional_rules :
    (∀ n : String, 1 < (splitFragments n).length →
      (isNumericString ((splitFragments n).getD 1 "") = false →
          (parseBranchName n).feature
            = String.mk (removeFirstOccurrence BUILDABLE_BRANCH_TAG.data
                ((splitFragments n).getD 1 "").data)
          ∧ (parseBranchName n).isBuildable
            = BUILDABLE_BRANCH_TAG.data.isPrefixOf ((splitFragments n).getD 1 "").data)
      ∧ (isNumericString ((splitFragments n).getD 1 "") = true →
          (parseBranchName n).feature = ""
          ∧ (parseBranchName n).isBuildable = false
          ∧ (parseBranchName n).ticketNumber
            = ((splitFragments n).filter fun b => isNumericString b).head?))
    ∧ parseBranchName "1.2.3_build#login_42_fix-bug"
        = { version := "1.2.3", feature := "login", ticketNumber := some "42",
            description := "fix-bug", isBuildable := true } := by
  constructor
  · intro n hn
    have hfields := parseBranchName_fields n
    constructor
    · intro hnum
      have hg : (1 < (splitFragments n).length
          && !isNumericString ((splitFragments n).getD 1 "")) = true := by
        rw [hnum]
        simp [hn]
      constructor
      · rw [hfields.2.2.2.1, if_pos hg]
        by_cases hfe : (splitFragments n).getD 1 "" = ""
        · rw [if_pos hfe, hfe]
          rfl
        · rw [if_neg hfe]
      · rw [hfields.2.2.2.2, if_pos hg]
    · intro hnum
      have hg : (1 < (splitFragments n).length
          && !isNumericString ((splitFragments n).getD 1 "")) = false := by
        rw [hnum]
        simp
      have hgn : ¬((1 < (splitFragments n).length
          && !isNumericString ((splitFragments n).getD 1 "")) = true) := by
        rw [hg]
        exact fun hh => Bool.noConfusion hh
      refine ⟨?_, ?_, hfields.2.1⟩
      · rw [hfields.2.2.2.1, if_neg hgn]
      · rw [hfields.2.2.2.2, if_neg hgn]
  · decide

/-- Witness for C6: the theorem applied to the concrete names "1.2.3_abc"
(non-numeric fragment 1) and "1.2.3_42" (numeric fragment 1). -/
theorem parse_positional_rules_witness :
    (parseBranchName "1.2.3_abc").feature = "abc"
    ∧ (parseBranchName "1.2.3_abc").isBuildable = false
    ∧ (parseBranchName "1.2.3_42").feature = ""
    ∧ (parseBranchName "1.2.3_42").ticketNumber = some "42" :=
  ⟨((parse_positional_rules.1 "1.2.3_abc" (by decide)).1 (by decide)).1,
   ((parse_positional_rules.1 "1.2.3_abc" (by decide)).1 (by decide)).2,
   ((parse_positional_rules.1 "1.2.3_42" (by decide)).2 (by decide)).1,
   ((parse_positional_rules.1 "1.2.3_42" (by decide)).2 (by decide)).2.2⟩

/-- C7 (amended): for every descriptor with non-empty version whose fields
contain no underscore (the domain the validation layer guarantees), the
encoded name has no two adjacent underscores and neither starts nor ends with
one, and the all-empty-optional example encodes to exactly "1.2.3". -/
theorem buildBranchName_drops_empty_fragments (d : ParsedBranch)
    (hv : d.version ≠ "")
    (hvu : '_' ∉ d.version.data)
    (hfu : '_' ∉ d.feature.data)
    (htu : '_' ∉ (ticketNumberToString d.ticketNumber).data)
    (hsu : '_' ∉ d.description.data) :
    hasAdjacentUnderscores (buildBranchName d).data = false
    ∧ (buildBranchName d).data.head? ≠ some '_'
    ∧ (buildBranchName d).data.getLast? ≠ some '_'
    ∧ buildBranchName
        { version := "1.2.3", feature := "", ticketNumber := some "",
          description := "", isBuildable := false } = "1.2.3" := by
  have hvb : (d.version != "") = true := bne_iff_ne.mpr hv
  have hfilter : ([d.version,
        (if d.isBuildable then BUILDABLE_BRANCH_TAG else "") ++ d.feature,
        ticketNumberToString d.ticketNumber,
        d.description]).filter (fun fragment => fragment != "")
      = d.version ::
        (([(if d.isBuildable then BUILDABLE_BRANCH_TAG else "") ++ d.feature,
           ticketNumberToString d.ticketNumber,
           d.description]).filter fun fragment => fragment != "") := by
    rw [List.filter_cons]
    simp [hvb]
  have hmemprop : ∀ f ∈ ([d.version,
        (if d.isBuildable then BUILDABLE_BRANCH_TAG else "") ++ d.feature,
        ticketNumberToString d.ticketNumber,
        d.description]).filter (fun fragment => fragment != ""),
      f ≠ "" ∧ '_' ∉ f.data := by
    intro f hf
    refine ⟨bne_iff_ne.mp (List.mem_filter.mp hf).2, ?_⟩
    have h1 := List.mem_of_mem_filter hf
    simp only [List.mem_cons, List.not_mem_nil, or_false] at h1
    rcases h1 with rfl | rfl | rfl | rfl
    · exact hvu
    · exact featureFragment_no_underscore d hfu
    · exact htu
    · exact hsu
  have hne : ([d.version,
        (if d.isBuildable then BUILDABLE_BRANCH_TAG else "") ++ d.feature,
        ticketNumberToString d.ticketNumber,
        d.description]).filter (fun fragment => fragment != "") ≠ [] := by
    rw [hfilter]
    simp
  have hcl := joinUnderscore_clean _ hne hmemprop
  exact ⟨hcl.1, hcl.2.2.1, hcl.2.2.2, by decide⟩

/-- Witness for C7: the theorem applied to the concrete master descriptor. -/
theorem buildBranchName_drops_empty_fragments_witness :
    hasAdjacentUnderscores (buildBranchName
        { version := "master", feature := "", ticketNumber := none,
          description := "", isBuildable := false }).data = false
    ∧ (buildBranchName
        { version := "master", feature := "", ticketNumber := none,
          description := "", isBuildable := false }).data.head? ≠ some '_'
    ∧ (buildBranchName
        { version := "master", feature := "", ticketNumber := none,
          description := "", isBuildable := false }).data.getLast? ≠ some '_'
    ∧ buildBranchName
        { version := "1.2.3", feature := "", ticketNumber := some "",
          description := "", isBuildable := false } = "1.2.3" :=
  buildBranchName_drops_empty_fragments
    { version := "master", feature := "", ticketNumber := none,
      description := "", isBuildable := false }
    (by decide) (by decide) (by decide) (by decide) (by decide)

/-- C8 (amended): fields not found while decoding default to the empty string
for feature and description and to false for isBuildable, while a missing
ticketNumber is undefined (none), a falsy value distinct from the empty
string; decode("master") yields the master descriptor (with ticketNumber
none) and isMasterBranch classifies it as Master. -/
theorem parse_defaults :
    (∀ n : String, ((splitFragments n).filter fun b => isNumericString b) = [] →
        (parseBranchName n).ticketNumber = none)
    ∧ (∀ n : String, ¬ 1 < (splitFragments n).length →
        (parseBranchName n).feature = ""
        ∧ (parseBranchName n).description = ""
        ∧ (parseBranchName n).isBuildable = false)
    ∧ parseBranchName "master"
        = { version := "master", feature := "", ticketNumber := none,
            description := "", isBuildable := false }
    ∧ isMasterBranch (parseBranchName "master") = true := by
  refine ⟨?_, ?_, by decide, by decide⟩
  · intro n h
    rw [(parseBranchName_fields n).2.1, h]
    rfl
  · intro n h
    have hg : (1 < (splitFragments n).length
        && !isNumericString ((splitFragments n).getD 1 "")) = false := by
      simp [h]
    have hgn : ¬((1 < (splitFragments n).length
        && !isNumericString ((splitFragments n).getD 1 "")) = true) := by
      rw [hg]
      exact fun hh => Bool.noConfusion hh
    refine ⟨?_, ?_, ?_⟩
    · rw [(parseBranchName_fields n).2.2.2.1, if_neg hgn]
    · rw [(parseBranchName_fields n).2.2.1, if_neg h]
    · rw [(parseBranchName_fields n).2.2.2.2, if_neg hgn]

/-- Witness for C8: the theorem applied to the concrete name "master". -/
theorem parse_defaults_witness :
    (parseBranchName "master").ticketNumber = none
    ∧ (parseBranchName "master").feature = ""
    ∧ (parseBranchName "master").description = ""
    ∧ (parseBranchName "master").isBuildable = false :=
  ⟨parse_defaults.1 "master" (by decide),
   (parse_defaults.2.1 "master" (by decide)).1,
   (parse_defaults.2.1 "master" (by decide)).2.1,
   (parse_defaults.2.1 "master" (by decide)).2.2⟩

/-- C9: each creation operation overwrites exactly the fields relevant to the
requested kind on a clone of the current descriptor and leaves the other
encoded fields unchanged. -/
theorem create_branch_frame_effects :
    (∀ (p : ParsedBranch) (newVersion : String) (q : ParsedBranch),
        createVersionBranch p newVersion = Except.ok q →
        q.version = newVersion ∧ q.feature = p.feature
          ∧ q.ticketNumber = p.ticketNumber ∧ q.description = p.description
          ∧ q.isBuildable = p.isBuildable)
    ∧ (∀ (p : ParsedBranch) (newFeature : String) (newIsBuildable : Bool)
        (q : ParsedBranch),
        createFeatureBranch p newFeature newIsBuildable = Except.ok q →
        q.feature = newFeature ∧ q.isBuildable = newIsBuildable
          ∧ q.version = p.version ∧ q.ticketNumber = p.ticketNumber
          ∧ q.description = p.description)
    ∧ (∀ (p : ParsedBranch) (newDescription newTicketNumber : String)
        (q : ParsedBranch),
        createDevBranch p newDescription newTicketNumber = Except.ok q →
        q.ticketNumber = some newTicketNumber ∧ q.description = newDescription
          ∧ q.version = p.version ∧ q.feature = p.feature
          ∧ q.isBuildable = p.isBuildable) := by
  refine ⟨?_, ?_, ?_⟩
  · intro p newVersion q h
    unfold createVersionBranch at h
    split at h
    · simp at h
    · rw [Except.ok.injEq] at h
      rw [← h]
      exact ⟨rfl, rfl, rfl, rfl, rfl⟩
  · intro p newFeature newIsBuildable q h
    unfold createFeatureBranch at h
    split at h
    · simp at h
    · rw [Except.ok.injEq] at h
      rw [← h]
      exact ⟨rfl, rfl, rfl, rfl, rfl⟩
  · intro p newDescription newTicketNumber q h
    unfold createDevBranch at h
    split at h
    · simp at h
    · rw [Except.ok.injEq] at h
      rw [← h]
      exact ⟨rfl, rfl, rfl, rfl, rfl⟩

/-- Witness for C9: the dev-branch clause applied to a concrete version
descriptor and concrete dev arguments. -/
theorem create_branch_frame_effects_witness :
    ({ version := "1.2.3", feature := "", ticketNumber := some "42",
       description := "fix", isBuildable := false } : ParsedBranch).ticketNumber
        = some "42"
    ∧ ({ version := "1.2.3", feature := "", ticketNumber := some "42",
         description := "fix", isBuildable := false } : ParsedBranch).description = "fix"
    ∧ ({ version := "1.2.3", feature := "", ticketNumber := some "42",
         description := "fix", isBuildable := false } : ParsedBranch).version
        = ({ version := "1.2.3", feature := "", ticketNumber := none,
             description := "", isBuildable := false } : ParsedBranch).version
    ∧ ({ version := "1.2.3", feature := "", ticketNumber := some "42",
         description := "fix", isBuildable := false } : ParsedBranch).feature
        = ({ version := "1.2.3", feature := "", ticketNumber := none,
             description := "", isBuildable := false } : ParsedBranch).feature
    ∧ ({ version := "1.2.3", feature := "", ticketNumber := some "42",
         description := "fix", isBuildable := false } : ParsedBranch).isBuildable
        = ({ version := "1.2.3", feature := "", ticketNumber := none,
             description := "", isBuildable := false } : ParsedBranch).isBuildable :=
  create_branch_frame_effects.2.2
    { version := "1.2.3", feature := "", ticketNumber := none,
      description := "", isBuildable := false } "fix" "42"
    { version := "1.2.3", feature := "", ticketNumber := some "42",
      description := "fix", isBuildable := false } (by rfl)

/-- C10: parseBranchName is total: splitting on underscore always yields at
least one fragment, so the version field (fragment 0) is always defined, and
the falsy-name fallback to the current branch is itself a plain parse of the
current branch name; no input makes the parser fail. -/
theorem parseBranchName_total :
    (∀ s : String, splitFragments s ≠ [])
    ∧ (∀ (currentBranch : String) (branchName : Option String),
        parseBranchNameOrCurrent currentBranch branchName
          = parseBranchName (effectiveBranchName currentBranch branchName)
        ∧ (parseBranchNameOrCurrent currentBranch branchName).version
          = (splitFragments (effectiveBranchName currentBranch branchName)).headD "") := by
  constructor
  · intro s h
    exact splitFragmentsAux_ne_nil s.data (List.map_eq_nil_iff.mp h)
  · intro currentBranch branchName
    exact ⟨rfl, rfl⟩

/-- Witness for C10: the theorem applied to the empty name, which falls back
to the current branch "master". -/
theorem parseBranchName_total_witness :
    splitFragments "" ≠ []
    ∧ (parseBranchNameOrCurrent "master" (some "")).version
        = (splitFragments (effectiveBranchName "master" (some ""))).headD "" :=
  ⟨parseBranchName_total.1 "", (parseBranchName_total.2 "master" (some "")).2⟩

end Gut
